import Mathlib

/-!
Verification of `src/mlpack/methods/det/det_multi_main.cpp` (multi-DET
density evaluator). The program loads a list of serialized density
estimation trees, computes `dataSize` as the maximum dimensionality over
the successfully loaded trees, then reads test points line by line from
an input stream and writes, for each point, the weighted average of the
per-tree density values (weight = `End() - Start()`).

Real-valued quantities (`double`, `long double`, parsed coordinates,
densities) are modelled over exact rationals `ℚ`; machine naturals
(`size_t`) as `ℕ`. Stateful loops are embedded as structural recursions
carrying the loop state explicitly.
-/

set_option autoImplicit false

/-- Model of the opaque `DET` tree (`DTree<arma::mat, int>` from
`dtree.hpp`, which is external to the evaluator). `maxValsLen` embeds
`tree->MaxVals().n_elem`; `computeValue` embeds
`model->ComputeValue(data)` as an abstract function of the point.
`trainingPartitionSize` is modelled from the spec: the non-negative
integer `model->End() - model->Start()`, the count of training samples
of the partition of the model, used as the combination weight. -/
structure DET where
  maxValsLen : ℕ
  trainingPartitionSize : ℕ
  computeValue : List ℚ → ℚ

/-- State of the model-loading loop (lines 67-83 of the source):
the models pushed so far, the number of `Log::Warn` messages emitted
for failed loads, and the running maximum `dataSize`. -/
structure LoadState where
  models : List DET
  warnings : ℕ
  dataSize : ℕ

/-- Modelled from the spec: `data::Load(modelFiles[i], "det_model", tree,
...)` is not part of the evaluator source; per the spec, deserialization
of one resource either yields a model or fails non-fatally, so one load
attempt is embedded as an `Option DET` outcome. The loop body: on failure
(`!tree`) emit a warning and skip; on success push the tree and fold its
`MaxVals().n_elem` into `dataSize` with `std::max`. -/
def loadStep (s : LoadState) (o : Option DET) : LoadState :=
  match o with
  | none => { s with warnings := s.warnings + 1 }
  | some t =>
      { s with
        models := s.models ++ [t],
        dataSize := max s.dataSize t.maxValsLen }

/-- The whole loading loop over the ordered outcomes of the model files,
starting from no models, no warnings and `dataSize = 0`. -/
def loadModels (outcomes : List (Option DET)) : LoadState :=
  outcomes.foldl loadStep ⟨[], 0, 0⟩

/-- Models the final `(double)density` narrowing cast (line 160). Over
the exact-rational embedding of the reals the cast is the identity; it
marks the one place where the extended-precision accumulator is narrowed. -/
def narrowToDouble (x : ℚ) : ℚ := x

/-- One iteration of the per-point model loop (lines 150-156):
`density += (long double)val * cnt; count += cnt;` with
`val = model->ComputeValue(data)` and `cnt = model->End() - model->Start()`.
The accumulator pair is `(density, count)`. -/
def evalStep (data : List ℚ) (p : ℚ × ℕ) (m : DET) : ℚ × ℕ :=
  (p.1 + m.computeValue data * (m.trainingPartitionSize : ℚ),
   p.2 + m.trainingPartitionSize)

/-- The per-point evaluation (lines 140-160), sequential semantics of the
model loop: accumulate `density` (a `long double`, here exact) and
`count`, then `density /= count` and narrow to `double`. -/
def evalPoint (models : List DET) (data : List ℚ) : ℚ :=
  let acc := models.foldl (evalStep data) ((0 : ℚ), (0 : ℕ))
  narrowToDouble (acc.1 / (acc.2 : ℚ))

/-- Severity of a `Log` message. -/
inductive LogLevel
  | info
  | warn
  | fatal
deriving DecidableEq

/-- One emitted diagnostic message. -/
structure Diag where
  level : LogLevel
  msg : String
deriving DecidableEq

/-- Binding of the input stream (lines 91-105). If no `test_file`
parameter is given, standard input is used. Otherwise the named file is
opened; `goodAfterOpen` embeds `input->good()` after the open. On a bad
stream the code runs `Log::Fatal << " failed!"`; modelled from the spec,
`Log::Fatal` terminates the process, embedded as the `Bool` component
(`true` = fatal termination). The `List Diag` component collects the
emitted messages in order. -/
def bindInput (testFile : Option String) (goodAfterOpen : Bool) :
    List Diag × Bool :=
  match testFile with
  | none =>
      ([⟨LogLevel.info, "The estimation will operate on the standard input."⟩],
       false)
  | some fName =>
      if goodAfterOpen then
        ([⟨LogLevel.info, "Processing " ++ fName ++ "..."⟩,
          ⟨LogLevel.info, " done."⟩], false)
      else
        ([⟨LogLevel.info, "Processing " ++ fName ++ "..."⟩,
          ⟨LogLevel.fatal, " failed!"⟩], true)

/-- One input line, as obtained by `std::getline`: its character count
(`line_string.size()`), its whitespace-separated tokens in order — each
token carried as `some v` when `operator>>(double&)` parses it to the
value `v`, or `none` when numeric extraction fails on it — and whether
trailing whitespace follows the last token (which decides whether the
extraction of the last token already hits end-of-stream). -/
structure Line where
  size : ℕ
  toks : List (Option ℚ)
  trailingWs : Bool
deriving DecidableEq

/-- State of the `std::stringstream line_stream`: remaining tokens and
the `failbit` / `eofbit` flags. -/
structure SS where
  toks : List (Option ℚ)
  trailingWs : Bool
  failbit : Bool
  eofbit : Bool
deriving DecidableEq

/-- The fresh `line_stream(line_string)` (line 132). -/
def ssInit (l : Line) : SS := ⟨l.toks, l.trailingWs, false, false⟩

/-- One `line_stream >> data.at(i)` extraction, returning the new stream
state and the value written to the cell (`none` = cell left unmodified):
if `failbit` is set the sentry fails and nothing happens; on an exhausted
stream, whitespace skipping hits end-of-input, setting `eofbit` and
`failbit`, cell unmodified; on a malformed token the extraction fails,
writing `0` (C++11) and setting `failbit`, the unread characters staying
in the stream; on a valid token the value is written and `eofbit` is set
exactly when the token is the last and no trailing whitespace follows it. -/
def extract (s : SS) : SS × Option ℚ :=
  if s.failbit then (s, none)
  else
    match s.toks with
    | [] => ({ s with failbit := true, eofbit := true }, none)
    | none :: rest => ({ s with toks := none :: rest, failbit := true }, some 0)
    | some v :: rest =>
        ({ s with toks := rest, eofbit := rest.isEmpty && !s.trailingWs }, some v)

/-- The token-parsing loop (lines 134-138):
`data.zeros(dataSize); for (i = 0; !line_stream.eof() && i < dataSize; ++i)
line_stream >> data.at(i);`. Since cell `i` is written only at iteration
`i` of a zero-initialized vector, the loop is embedded as generating the
vector front to back: the argument counts the remaining cells
(`dataSize - i`); when the loop exits early (on `eofbit`) the remaining
cells keep their zero initialization, and an extraction that leaves the
cell unmodified leaves it at `0`. -/
def parseGo (s : SS) : ℕ → List ℚ
  | 0 => []
  | n + 1 =>
      if s.eofbit then List.replicate (n + 1) 0
      else
        match extract s with
        | (s2, none) => 0 :: parseGo s2 n
        | (s2, some v) => v :: parseGo s2 n

/-- Parsing one line into the `dataSize`-length coordinate vector. -/
def parseLine (l : Line) (dataSize : ℕ) : List ℚ :=
  parseGo (ssInit l) dataSize

/-- The record loop (lines 126-161): read a line; a line of size zero
breaks the loop; otherwise parse it, evaluate the ensemble on it and
emit the estimate; stream exhaustion (no line left) also ends the loop.
Returns the emitted estimates in order. -/
def processLines (models : List DET) (dataSize : ℕ) : List Line → List ℚ
  | [] => []
  | l :: rest =>
      if l.size = 0 then []
      else
        evalPoint models (parseLine l dataSize) ::
          processLines models dataSize rest

/-- The run of `main` after command-line validation, abstracted over the
load outcomes and the input lines: load the models, then check
`Log::Assert(dataSize > 0)` — modelled from the spec, a failed assertion
is fatal (EmptyEnsemble) and no record processing happens — then run the
record loop. -/
def mainRun (outcomes : List (Option DET)) (lines : List Line) :
    Except String (List ℚ) :=
  let st := loadModels outcomes
  if 0 < st.dataSize then
    Except.ok (processLines st.models st.dataSize lines)
  else
    Except.error ("Log::Assert failed: dataSize > 0")

/-- Memory state of the unsynchronized accumulation `count += cnt`
performed by two OpenMP worker threads on the shared `count` of lines
141-156 (`#pragma omp parallel for default(shared)` with no reduction,
atomic or critical clause): the shared accumulator and, for each thread,
a private register holding the value it last read. -/
structure RaceState where
  shared : ℕ
  reg0 : ℕ
  reg1 : ℕ
deriving DecidableEq

/-- One hardware step of a non-atomic `count += cnt`: the increment made
by each thread is a read of the shared cell into its register followed by
a write of register-plus-contribution back to the shared cell. -/
inductive RaceOp
  | read0
  | write0
  | read1
  | write1
deriving DecidableEq

/-- Semantics of one step, with `c0`, `c1` the contributions of the two
threads (the `End() - Start()` counts of their models). -/
def raceStep (c0 c1 : ℕ) (s : RaceState) : RaceOp → RaceState
  | RaceOp.read0 => { s with reg0 := s.shared }
  | RaceOp.write0 => { s with shared := s.reg0 + c0 }
  | RaceOp.read1 => { s with reg1 := s.shared }
  | RaceOp.write1 => { s with shared := s.reg1 + c1 }

/-- Final value of the shared accumulator after an interleaving of the
unsynchronized increments of the two threads, starting from `count = 0`. -/
def racyCount (c0 c1 : ℕ) (sched : List RaceOp) : ℕ :=
  (sched.foldl (raceStep c0 c1) ⟨0, 0, 0⟩).shared

/-- Whether a step belongs to thread 0. -/
def isThread0 : RaceOp → Bool
  | RaceOp.read0 => true
  | RaceOp.write0 => true
  | RaceOp.read1 => false
  | RaceOp.write1 => false

/-- Example tree of the spec §8: weight 3, value `0.4` at every point. -/
def exModelA : DET := ⟨1, 3, fun _ => 2 / 5⟩

/-- Example tree of the spec §8: weight 1, value `0.8` at every point. -/
def exModelB : DET := ⟨1, 1, fun _ => 4 / 5⟩

/-- A concrete test point. -/
def exPoint : List ℚ := [0]

/-- A concrete one-token input line, `"1"`. -/
def exLine1 : Line := ⟨1, [some 1], false⟩

/-- A concrete one-token input line, `"2"`. -/
def exLine2 : Line := ⟨1, [some 2], false⟩

/-- The empty line, `""`. -/
def exEmptyLine : Line := ⟨0, [], false⟩

/-- A whitespace-only line, `"   "`: three characters, no token. -/
def exWsLine : Line := ⟨3, [], false⟩

/-! ## Properties of the loading loop -/

/-- Invariant of the loading loop, from an arbitrary intermediate state:
the models are those already present followed by the successful outcomes
in order, the warning count grows by the number of failures, and
`dataSize` is the maximum of its entry value and the maxima of the newly
loaded trees. -/
theorem loadModels_go (outs : List (Option DET)) (s : LoadState) :
    ((outs.foldl loadStep s).models = s.models ++ outs.filterMap id) ∧
    ((outs.foldl loadStep s).warnings
        = s.warnings + outs.countP Option.isNone) ∧
    ((outs.foldl loadStep s).dataSize
        = max s.dataSize
            (((outs.filterMap id).map (fun t => t.maxValsLen)).foldr max 0)) := by
  induction outs generalizing s with
  | nil => simp
  | cons o tl ih =>
      cases o with
      | none =>
          obtain ⟨h1, h2, h3⟩ := ih { s with warnings := s.warnings + 1 }
          refine ⟨?_, ?_, ?_⟩
          · simpa using h1
          · simp only [List.foldl_cons, loadStep] at h2 ⊢
            rw [h2]
            simp [List.countP_cons]
            omega
          · simpa using h3
      | some t =>
          obtain ⟨h1, h2, h3⟩ := ih
            { s with models := s.models ++ [t],
                     dataSize := max s.dataSize t.maxValsLen }
          refine ⟨?_, ?_, ?_⟩
          · simp only [List.foldl_cons, loadStep] at h1 ⊢
            rw [h1]
            simp
          · simp only [List.foldl_cons, loadStep] at h2 ⊢
            rw [h2]
            simp [List.countP_cons, Option.isNone]
          · simp only [List.foldl_cons, loadStep] at h3 ⊢
            rw [h3]
            simp [Nat.max_assoc]

/-- The number of successful outcomes plus the number of failures is the
number of attempts. -/
theorem length_filterMap_id_add_countP (outs : List (Option DET)) :
    (outs.filterMap id).length + outs.countP Option.isNone = outs.length := by
  induction outs with
  | nil => rfl
  | cons o tl ih =>
      cases o <;> simp [List.countP_cons, Option.isNone] <;> omega

/-- C2: loading an ordered list of N model resources of which K fail to
deserialize warns once per failing resource, skips it, and continues,
yielding exactly the N−K successfully loaded models (in order) and K
warnings; an individual failure is non-fatal (the loop keeps folding). -/
theorem loading_tolerates_partial_failure (outcomes : List (Option DET)) :
    (loadModels outcomes).models = outcomes.filterMap id ∧
    (loadModels outcomes).models.length
        = outcomes.length - outcomes.countP Option.isNone ∧
    (loadModels outcomes).warnings = outcomes.countP Option.isNone := by
  obtain ⟨h1, h2, h3⟩ := loadModels_go outcomes ⟨[], 0, 0⟩
  have hl := length_filterMap_id_add_countP outcomes
  have hm : (loadModels outcomes).models = outcomes.filterMap id := by
    simpa [loadModels] using h1
  refine ⟨hm, ?_, ?_⟩
  · rw [hm]; omega
  · simpa [loadModels] using h2

/-- C7: after loading, `dataSize` is the maximum `MaxVals().n_elem` over
the successfully loaded trees only; failed resources contribute nothing. -/
theorem dataWidth_is_max_over_loaded (outcomes : List (Option DET)) :
    (loadModels outcomes).dataSize
      = ((outcomes.filterMap id).map (fun t => t.maxValsLen)).foldr max 0 := by
  have h := (loadModels_go outcomes ⟨[], 0, 0⟩).2.2
  simpa [loadModels] using h

/-- C3: if zero models were successfully loaded then `dataSize = 0`, the
`Log::Assert(dataSize > 0)` check fails, and the run terminates with the
diagnostic before any record is processed. -/
theorem empty_ensemble_is_fatal (outcomes : List (Option DET))
    (lines : List Line) (h : (loadModels outcomes).models = []) :
    (loadModels outcomes).dataSize = 0 ∧
    mainRun outcomes lines
      = Except.error ("Log::Assert failed: dataSize > 0") := by
  have h1 := (loadModels_go outcomes ⟨[], 0, 0⟩).1
  have hm : (loadModels outcomes).models = outcomes.filterMap id := by
    simpa [loadModels] using h1
  have hfm : outcomes.filterMap id = [] := by rw [← hm]; exact h
  have hd : (loadModels outcomes).dataSize = 0 := by
    have h3 : (loadModels outcomes).dataSize
        = ((outcomes.filterMap id).map (fun t => t.maxValsLen)).foldr max 0 := by
      simpa [loadModels] using (loadModels_go outcomes ⟨[], 0, 0⟩).2.2
    rw [h3, hfm]
    rfl
  exact ⟨hd, by simp [mainRun, hd]⟩

/-- C3 witness: one model file whose deserialization fails loads zero
models, and the run halts at the assertion with no estimates produced. -/
theorem empty_ensemble_is_fatal_witness :
    (loadModels [(none : Option DET)]).models = [] ∧
    ((loadModels [(none : Option DET)]).dataSize = 0 ∧
     mainRun [(none : Option DET)] []
       = Except.error ("Log::Assert failed: dataSize > 0")) :=
  ⟨rfl, empty_ensemble_is_fatal [(none : Option DET)] [] rfl⟩

/-! ## Properties of the per-point evaluation -/

/-- The accumulating fold of the model loop computes the running sums of
`ComputeValue * weight` and of the weights. -/
theorem evalPoint_foldl (data : List ℚ) (models : List DET) (a : ℚ) (b : ℕ) :
    models.foldl (evalStep data) (a, b)
      = (a + (models.map
            (fun m => m.computeValue data * (m.trainingPartitionSize : ℚ))).sum,
         b + (models.map (fun m => m.trainingPartitionSize)).sum) := by
  induction models generalizing a b with
  | nil => simp
  | cons m tl ih => simp [evalStep, ih, add_assoc]

/-- C1: for every test point and nonempty ensemble, the emitted estimate
is `(Σ ComputeValue_m(point) * weight_m) / (Σ weight_m)`, the sums being
accumulated exactly (the `long double` accumulator is modelled as exact)
and the quotient narrowed only at the end. -/
theorem evaluate_is_weighted_average (models : List DET) (data : List ℚ)
    (h : models ≠ []) :
    evalPoint models data
      = ((models.map
            (fun m => m.computeValue data * (m.trainingPartitionSize : ℚ))).sum)
        / (((models.map (fun m => m.trainingPartitionSize)).sum : ℕ) : ℚ) := by
  show narrowToDouble
      ((models.foldl (evalStep data) ((0 : ℚ), (0 : ℕ))).1
        / (((models.foldl (evalStep data) ((0 : ℚ), (0 : ℕ))).2 : ℕ) : ℚ)) = _
  rw [evalPoint_foldl]
  simp [narrowToDouble]

/-- C1 witness: weights 3 and 1, values `0.4` and `0.8`, give
`(0.4*3 + 0.8*1)/4 = 0.5`. -/
theorem evaluate_is_weighted_average_witness :
    ([exModelA, exModelB] : List DET) ≠ [] ∧
    (evalPoint [exModelA, exModelB] exPoint
        = (([exModelA, exModelB].map
              (fun m => m.computeValue exPoint * (m.trainingPartitionSize : ℚ))).sum)
          / ((([exModelA, exModelB].map
                (fun m => m.trainingPartitionSize)).sum : ℕ) : ℚ)) ∧
    evalPoint [exModelA, exModelB] exPoint = 1 / 2 :=
  ⟨List.cons_ne_nil _ _,
   evaluate_is_weighted_average [exModelA, exModelB] exPoint
     (List.cons_ne_nil _ _),
   by norm_num [evalPoint, evalStep, exModelA, exModelB, exPoint,
     narrowToDouble]⟩

/-- C4 evidence: the schedule `read0, read1, write0, write1` is a valid
interleaving of the two per-thread increment sequences, yet the plain
unsynchronized `count += cnt` of the source (shared accumulator, no
reduction or atomic clause) loses one contribution: with both counts `1`
the shared accumulator ends at `1`, not `1 + 1 = 2`. -/
theorem racy_shared_increment_loses_update :
    ([RaceOp.read0, RaceOp.read1, RaceOp.write0, RaceOp.write1].filter
        isThread0 = [RaceOp.read0, RaceOp.write0]) ∧
    ([RaceOp.read0, RaceOp.read1, RaceOp.write0, RaceOp.write1].filter
        (fun o => !isThread0 o) = [RaceOp.read1, RaceOp.write1]) ∧
    racyCount 1 1 [RaceOp.read0, RaceOp.read1, RaceOp.write0, RaceOp.write1]
        = 1 ∧
    (1 : ℕ) + 1 = 2 := by
  decide

/-! ## Properties of the record loop -/

/-- The record loop processes a block of nonempty lines one estimate per
line, in order, and continues into whatever follows the block. -/
theorem processLines_nonempty_block (models : List DET) (dataSize : ℕ) :
    ∀ pre : List Line, (∀ l ∈ pre, l.size ≠ 0) →
      ∀ tail : List Line,
        processLines models dataSize (pre ++ tail)
          = pre.map (fun l => evalPoint models (parseLine l dataSize))
            ++ processLines models dataSize tail := by
  intro pre
  induction pre with
  | nil => intro _ tail; simp
  | cons a tl ih =>
      intro hp tail
      have ha : a.size ≠ 0 := hp a (List.mem_cons_self a tl)
      have htl := ih (fun l hl => hp l (List.mem_cons_of_mem a hl)) tail
      simp [processLines, ha, htl]

/-- C5: the record loop stops at the first empty line (or at stream
exhaustion), without error; with the first empty line at position k,
exactly the estimates of the k−1 preceding records are emitted, whatever
content follows the empty line. -/
theorem stream_stops_at_empty_line (models : List DET) (dataSize : ℕ)
    (pre : List Line) (e : Line) (rest : List Line)
    (hpre : ∀ l ∈ pre, l.size ≠ 0) (he : e.size = 0) :
    processLines models dataSize (pre ++ e :: rest)
        = pre.map (fun l => evalPoint models (parseLine l dataSize)) ∧
    processLines models dataSize pre
        = pre.map (fun l => evalPoint models (parseLine l dataSize)) := by
  have h1 := processLines_nonempty_block models dataSize pre hpre (e :: rest)
  have h2 := processLines_nonempty_block models dataSize pre hpre []
  have he2 : processLines models dataSize (e :: rest) = [] := by
    simp [processLines, he]
  constructor
  · rw [h1, he2, List.append_nil]
  · simpa [processLines] using h2

/-- C5 witness: input `"1"`, `""`, `"2"` — only the estimate of `"1"` is
emitted; the record `"2"` after the empty line is never processed. -/
theorem stream_stops_at_empty_line_witness :
    (∀ l ∈ [exLine1], l.size ≠ 0) ∧ exEmptyLine.size = 0 ∧
    (processLines [exModelA] 1 ([exLine1] ++ exEmptyLine :: [exLine2])
        = [exLine1].map (fun l => evalPoint [exModelA] (parseLine l 1)) ∧
     processLines [exModelA] 1 [exLine1]
        = [exLine1].map (fun l => evalPoint [exModelA] (parseLine l 1))) := by
  have h1 : ∀ l ∈ [exLine1], l.size ≠ 0 := by decide
  exact ⟨h1, rfl,
    stream_stops_at_empty_line [exModelA] 1 [exLine1] exEmptyLine [exLine2]
      h1 rfl⟩

/-! ## Properties of the token parser -/

/-- A stream whose `eofbit` is set leaves every remaining cell at its
zero initialization. -/
theorem parseGo_eof (s : SS) (h : s.eofbit = true) (n : ℕ) :
    parseGo s n = List.replicate n 0 := by
  cases n <;> simp [parseGo, h]

/-- A stream whose `failbit` is set never modifies a cell again: every
remaining cell keeps its zero initialization. -/
theorem parseGo_fail (s : SS) (h : s.failbit = true) (n : ℕ) :
    parseGo s n = List.replicate n 0 := by
  induction n with
  | zero => simp [parseGo]
  | succ k ih =>
      cases hb : s.eofbit
      · simp [parseGo, hb, extract, h, ih, List.replicate_succ]
      · simp [parseGo, hb]

/-- Parsing a line all of whose tokens extract successfully: the first
`dataSize` values land in order, missing trailing cells stay `0`, tokens
beyond `dataSize` are never read. -/
theorem parseGo_all_valid (tws : Bool) (w : ℕ) :
    ∀ vals : List ℚ,
      parseGo ⟨vals.map Option.some, tws, false, false⟩ w
        = vals.take w ++ List.replicate (w - vals.length) 0 := by
  induction w with
  | zero => intro vals; simp [parseGo]
  | succ n ih =>
      intro vals
      cases vals with
      | nil =>
          simp [parseGo, extract, List.replicate_succ, parseGo_fail]
      | cons v vtl =>
          cases vtl with
          | nil =>
              cases htw : tws
              · simp [parseGo, extract, htw, parseGo_eof]
              · have h0 := ih []
                simp only [List.map_nil, List.take_nil, List.length_nil,
                  Nat.sub_zero, List.nil_append] at h0
                rw [htw] at h0
                simp [parseGo, extract, htw, h0]
          | cons v2 t2 =>
              have h2 := ih (v2 :: t2)
              simp only [List.map_cons] at h2
              simp [parseGo, extract, h2, Nat.succ_sub_succ]

/-- C6: a record whose tokens are the numbers `vals` is parsed left to
right into at most `dataSize` coordinates: the vector evaluated is
`vals` truncated to `dataSize`, padded with `0.0` on missing trailing
positions; tokens beyond the first `dataSize` are ignored. -/
theorem record_truncated_and_zero_padded (lineSize : ℕ) (tws : Bool)
    (vals : List ℚ) (dataSize : ℕ) :
    parseLine ⟨lineSize, vals.map Option.some, tws⟩ dataSize
      = vals.take dataSize ++ List.replicate (dataSize - vals.length) 0 :=
  parseGo_all_valid tws dataSize vals

/-- Parsing a line whose first failing token sits after the valid
numbers `vals`: the cells from position `vals.length` on keep their zero
default, whatever tokens (valid or not) follow the failing one. -/
theorem parseGo_after_bad (tws : Bool) (bad : List (Option ℚ)) (w : ℕ) :
    ∀ vals : List ℚ,
      parseGo ⟨vals.map Option.some ++ none :: bad, tws, false, false⟩ w
        = vals.take w ++ List.replicate (w - vals.length) 0 := by
  induction w with
  | zero => intro vals; simp [parseGo]
  | succ n ih =>
      intro vals
      cases vals with
      | nil =>
          simp [parseGo, extract, List.replicate_succ, parseGo_fail]
      | cons v vtl =>
          cases vtl with
          | nil =>
              have h2 := ih []
              simp only [List.map_nil, List.nil_append, List.take_nil,
                List.length_nil, Nat.sub_zero] at h2
              simp [parseGo, extract, h2, List.replicate_succ]
          | cons v2 t2 =>
              have h2 := ih (v2 :: t2)
              simp only [List.map_cons, List.cons_append] at h2
              simp [parseGo, extract, h2, Nat.succ_sub_succ]

/-- C10: once a token of a record fails numeric extraction, the stream
enters a failed state; that coordinate and every later coordinate of the
record remain at the `0.0` default, even when the tokens after the
failing one are valid numbers. -/
theorem failed_token_zeroes_rest_of_record (lineSize : ℕ) (tws : Bool)
    (vals : List ℚ) (bad : List (Option ℚ)) (dataSize : ℕ) :
    parseLine ⟨lineSize, vals.map Option.some ++ none :: bad, tws⟩ dataSize
      = vals.take dataSize ++ List.replicate (dataSize - vals.length) 0 :=
  parseGo_after_bad tws bad dataSize vals

/-- C9: a line that is nonempty but holds no token (whitespace only)
does not end the record loop: it is parsed as the all-zero point of
dimension `dataSize` and one estimate is emitted for it; only a line of
size exactly zero breaks the loop. -/
theorem whitespace_only_line_is_processed (models : List DET)
    (dataSize : ℕ) (l : Line) (rest : List Line)
    (h1 : l.size ≠ 0) (h2 : l.toks = []) :
    parseLine l dataSize = List.replicate dataSize 0 ∧
    processLines models dataSize (l :: rest)
      = evalPoint models (List.replicate dataSize 0)
          :: processLines models dataSize rest := by
  have hp : parseLine l dataSize = List.replicate dataSize 0 := by
    have h3 : ssInit l = ⟨[], l.trailingWs, false, false⟩ := by
      simp [ssInit, h2]
    show parseGo (ssInit l) dataSize = List.replicate dataSize 0
    rw [h3]
    simpa using parseGo_all_valid l.trailingWs dataSize []
  exact ⟨hp, by simp [processLines, h1, hp]⟩

/-- C9 witness: the line `"   "` (size 3, no token) with `dataSize = 2`
is evaluated at the point `(0, 0)` and does not stop the loop. -/
theorem whitespace_only_line_is_processed_witness :
    exWsLine.size ≠ 0 ∧ exWsLine.toks = [] ∧
    (parseLine exWsLine 2 = List.replicate 2 0 ∧
     processLines [exModelA] 2 (exWsLine :: [])
       = evalPoint [exModelA] (List.replicate 2 0)
           :: processLines [exModelA] 2 []) :=
  ⟨by decide, rfl,
   whitespace_only_line_is_processed [exModelA] 2 exWsLine [] (by decide) rfl⟩

/-! ## Properties of the input binding -/

/-- C8 counterexample: for the named input resource `points.csv` that is
not in a good state after opening, the run is fatal, but the only
fatal-level diagnostic is `" failed!"`, whose text does not contain the
resource name — the claim that the fatal diagnostic names the resource
fails on this input. -/
theorem input_fatal_diag_unnamed_counterexample :
    (bindInput (some ("points.csv")) false).2 = true ∧
    ((bindInput (some ("points.csv")) false).1.filter
        (fun d => decide (d.level = LogLevel.fatal)))
      = [⟨LogLevel.fatal, " failed!"⟩] ∧
    ¬ ("points.csv".data <:+: " failed!".data) := by
  decide

/-- C8 amended: if a named input resource cannot be opened or is not in
a good state, the process fails fatally; the fatal diagnostic itself is
the fixed text `" failed!"`, and the resource is named only by the
informational message emitted just before it. -/
theorem input_open_failure_is_fatal (fName : String) :
    (bindInput (some fName) false).2 = true ∧
    (⟨LogLevel.fatal, " failed!"⟩ : Diag) ∈ (bindInput (some fName) false).1 ∧
    (∃ d ∈ (bindInput (some fName) false).1,
        d.level = LogLevel.info ∧ fName.data <:+: d.msg.data) := by
  refine ⟨rfl, ?_, ?_⟩
  · simp [bindInput]
  · refine ⟨⟨LogLevel.info, "Processing " ++ fName ++ "..."⟩, ?_, rfl, ?_⟩
    · simp [bindInput]
    · refine ⟨"Processing ".data, "...".data, ?_⟩
      simp [String.data_append]
